import Mathlib

/-!
Verification of the horovod negotiation-protocol message model
(`horovod/common/mpi_message.h`).

The header declares the message value types (`MPIRequest`, `MPIRequestList`,
`MPIResponse`, `MPIResponseList`), their enumerations, their accessor and
mutator surface, and the codec entry points `ParseFromBytes` /
`SerializeToString`.  The data model below is a direct shallow embedding of
those declarations: each C++ class becomes a structure whose fields keep the
declared names, types (`int32_t`/`int64_t` become `Int`) and the declared
default initializers; each setter becomes a functional update.

The bodies of the codec, of `add_allgather_response`, and of the coordinator
are not part of the header, so they are modelled from the specification, as
marked on each such definition.
-/

namespace Horovod

/-- `MPIDataType` from the header: the ten tensor element types, with the
wire ordinals 0..9 fixed by the enum declaration. -/
inductive MPIDataType where
  | HOROVOD_UINT8
  | HOROVOD_INT8
  | HOROVOD_UINT16
  | HOROVOD_INT16
  | HOROVOD_INT32
  | HOROVOD_INT64
  | HOROVOD_FLOAT16
  | HOROVOD_FLOAT32
  | HOROVOD_FLOAT64
  | HOROVOD_BOOL
deriving DecidableEq, Repr

/-- The numeric value each enumerator carries in the C++ declaration. -/
def MPIDataType.toOrd : MPIDataType → Int
  | .HOROVOD_UINT8 => 0
  | .HOROVOD_INT8 => 1
  | .HOROVOD_UINT16 => 2
  | .HOROVOD_INT16 => 3
  | .HOROVOD_INT32 => 4
  | .HOROVOD_INT64 => 5
  | .HOROVOD_FLOAT16 => 6
  | .HOROVOD_FLOAT32 => 7
  | .HOROVOD_FLOAT64 => 8
  | .HOROVOD_BOOL => 9

/-- The list of all enumerators, in declaration order. -/
def MPIDataType.all : List MPIDataType :=
  [.HOROVOD_UINT8, .HOROVOD_INT8, .HOROVOD_UINT16, .HOROVOD_INT16,
   .HOROVOD_INT32, .HOROVOD_INT64, .HOROVOD_FLOAT16, .HOROVOD_FLOAT32,
   .HOROVOD_FLOAT64, .HOROVOD_BOOL]

/-- `MPIRequest::RequestType` from the header: ALLREDUCE = 0,
ALLGATHER = 1, BROADCAST = 2. -/
inductive RequestType where
  | ALLREDUCE
  | ALLGATHER
  | BROADCAST
deriving DecidableEq, Repr

def RequestType.toOrd : RequestType → Int
  | .ALLREDUCE => 0
  | .ALLGATHER => 1
  | .BROADCAST => 2

/-- `MPIResponse::ResponseType` from the header: ALLREDUCE = 0,
ALLGATHER = 1, BROADCAST = 2, ERROR = 3. -/
inductive ResponseType where
  | ALLREDUCE
  | ALLGATHER
  | BROADCAST
  | ERROR
deriving DecidableEq, Repr

def ResponseType.toOrd : ResponseType → Int
  | .ALLREDUCE => 0
  | .ALLGATHER => 1
  | .BROADCAST => 2
  | .ERROR => 3

/-- Error taxonomy of the protocol, from the specification's error-handling
design: a decode-time structural violation is `MalformedMessage`, combining
incompatible responses is `InvalidFusion`, a per-tensor disagreement is
`RequestMismatch`. -/
inductive ProtocolError where
  | MalformedMessage
  | RequestMismatch
  | InvalidFusion
deriving DecidableEq, Repr

instance exceptDecEq {ε α : Type} [DecidableEq ε] [DecidableEq α] :
    DecidableEq (Except ε α) := fun a b =>
  match a, b with
  | .error e1, .error e2 =>
    if h : e1 = e2 then .isTrue (by rw [h])
    else .isFalse (fun hc => h (Except.error.inj hc))
  | .error _, .ok _ => .isFalse (fun hc => Except.noConfusion hc)
  | .ok _, .error _ => .isFalse (fun hc => Except.noConfusion hc)
  | .ok a1, .ok a2 =>
    if h : a1 = a2 then .isTrue (by rw [h])
    else .isFalse (fun hc => h (Except.ok.inj hc))

/-- `MPIRequest` from the header, with the declared field order and the
declared default member initializers (`request_rank_ = 0`,
`request_type_ = ALLREDUCE`, `tensor_type_ = HOROVOD_UINT8`,
`root_rank_ = 0`, `device_ = 0`, empty name, empty shape). -/
structure MPIRequest where
  request_rank : Int := 0
  request_type : RequestType := .ALLREDUCE
  tensor_type : MPIDataType := .HOROVOD_UINT8
  root_rank : Int := 0
  device : Int := 0
  tensor_name : String := ""
  tensor_shape : List Int := []
deriving DecidableEq, Repr

/-- `MPIRequest::set_request_rank`; the header declares a plain setter taking
any `int32_t`, so it stores its argument unchecked. -/
def MPIRequest.set_request_rank (r : MPIRequest) (v : Int) : MPIRequest :=
  { r with request_rank := v }

def MPIRequest.set_request_type (r : MPIRequest) (v : RequestType) : MPIRequest :=
  { r with request_type := v }

def MPIRequest.set_tensor_type (r : MPIRequest) (v : MPIDataType) : MPIRequest :=
  { r with tensor_type := v }

def MPIRequest.set_tensor_name (r : MPIRequest) (v : String) : MPIRequest :=
  { r with tensor_name := v }

def MPIRequest.set_root_rank (r : MPIRequest) (v : Int) : MPIRequest :=
  { r with root_rank := v }

def MPIRequest.set_device (r : MPIRequest) (v : Int) : MPIRequest :=
  { r with device := v }

def MPIRequest.set_tensor_shape (r : MPIRequest) (v : List Int) : MPIRequest :=
  { r with tensor_shape := v }

def MPIRequest.add_tensor_shape (r : MPIRequest) (v : Int) : MPIRequest :=
  { r with tensor_shape := r.tensor_shape ++ [v] }

/-- `MPIRequestList` from the header: a vector of requests plus the rank's
shutdown flag, defaulting to empty and `false`. -/
structure MPIRequestList where
  requests : List MPIRequest := []
  shutdown : Bool := false
deriving DecidableEq, Repr

def MPIRequestList.set_requests (l : MPIRequestList) (v : List MPIRequest) :
    MPIRequestList :=
  { l with requests := v }

def MPIRequestList.add_request (l : MPIRequestList) (v : MPIRequest) :
    MPIRequestList :=
  { l with requests := l.requests ++ [v] }

def MPIRequestList.set_shutdown (l : MPIRequestList) (v : Bool) :
    MPIRequestList :=
  { l with shutdown := v }

/-- `MPIResponse` from the header, with the declared field order and default
member initializers (`response_type_ = ALLREDUCE`, all other fields empty). -/
structure MPIResponse where
  response_type : ResponseType := .ALLREDUCE
  tensor_names : List String := []
  error_message : String := ""
  devices : List Int := []
  tensor_sizes : List Int := []
deriving DecidableEq, Repr

def MPIResponse.set_response_type (r : MPIResponse) (v : ResponseType) :
    MPIResponse :=
  { r with response_type := v }

def MPIResponse.set_tensor_names (r : MPIResponse) (v : List String) :
    MPIResponse :=
  { r with tensor_names := v }

def MPIResponse.add_tensor_name (r : MPIResponse) (v : String) : MPIResponse :=
  { r with tensor_names := r.tensor_names ++ [v] }

def MPIResponse.set_error_message (r : MPIResponse) (v : String) : MPIResponse :=
  { r with error_message := v }

def MPIResponse.set_devices (r : MPIResponse) (v : List Int) : MPIResponse :=
  { r with devices := v }

def MPIResponse.add_device (r : MPIResponse) (v : Int) : MPIResponse :=
  { r with devices := r.devices ++ [v] }

def MPIResponse.set_tensor_sizes (r : MPIResponse) (v : List Int) : MPIResponse :=
  { r with tensor_sizes := v }

def MPIResponse.add_tensor_size (r : MPIResponse) (v : Int) : MPIResponse :=
  { r with tensor_sizes := r.tensor_sizes ++ [v] }

/-- `MPIResponse::add_allgather_response`.  Modelled from the spec: the body
is not in the header; the spec says the operation appends another gather-kind
response's names, devices and per-rank sizes onto this one in order, is legal
only when both responses are gather-kind, and signals `InvalidFusion` on
mismatched kinds. -/
def MPIResponse.add_allgather_response (r other : MPIResponse) :
    Except ProtocolError MPIResponse :=
  if r.response_type = .ALLGATHER ∧ other.response_type = .ALLGATHER then
    Except.ok
      { r with
        tensor_names := r.tensor_names ++ other.tensor_names
        devices := r.devices ++ other.devices
        tensor_sizes := r.tensor_sizes ++ other.tensor_sizes }
  else
    Except.error .InvalidFusion

/-- `MPIResponseList` from the header: a vector of responses plus the round's
shutdown flag, defaulting to empty and `false`. -/
structure MPIResponseList where
  responses : List MPIResponse := []
  shutdown : Bool := false
deriving DecidableEq, Repr

def MPIResponseList.set_responses (l : MPIResponseList) (v : List MPIResponse) :
    MPIResponseList :=
  { l with responses := v }

def MPIResponseList.add_response (l : MPIResponseList) (v : MPIResponse) :
    MPIResponseList :=
  { l with responses := l.responses ++ [v] }

def MPIResponseList.set_shutdown (l : MPIResponseList) (v : Bool) :
    MPIResponseList :=
  { l with shutdown := v }

/-! ## Wire codec

Modelled from the spec: the header only declares `ParseFromBytes` /
`SerializeToString`, without bodies and without fixing a byte layout, so the
codec below realizes the specification's wire-codec requirements over an
abstract token alphabet (`Wire = List Int`, one token standing for the bytes
of one primitive field): a deterministic, order-preserving encoding in which
every field is written in declaration order, every repeated field is
length-prefixed, trailing tokens are ignored by the top-level entry points,
and parsing fails with `MalformedMessage` on truncation, on an out-of-range
enum ordinal, and on a violated structural invariant. -/

abbrev Wire := List Int

abbrev Parser (α : Type) := Wire → Except ProtocolError (α × Wire)

def pPure {α : Type} (a : α) : Parser α := fun w => Except.ok (a, w)

def pBind {α β : Type} (p : Parser α) (f : α → Parser β) : Parser β := fun w =>
  match p w with
  | Except.ok (a, w1) => f a w1
  | Except.error e => Except.error e

/-- Read one token; fails on an exhausted (truncated) input. -/
def readTok : Parser Int := fun w =>
  match w with
  | [] => Except.error .MalformedMessage
  | t :: w1 => Except.ok (t, w1)

/-- Validate a decodable condition, failing with `MalformedMessage`. -/
def pGuard (c : Prop) [Decidable c] : Parser Unit := fun w =>
  if c then Except.ok ((), w) else Except.error .MalformedMessage

/-- Read a non-negative token as a length. -/
def readNat : Parser Nat :=
  pBind readTok fun t => pBind (pGuard (0 ≤ t)) fun _ => pPure t.toNat

/-- Read a boolean encoded as 0 or 1; any other token is malformed. -/
def readBool : Parser Bool :=
  pBind readTok fun t =>
    if t = 0 then pPure false
    else if t = 1 then pPure true
    else fun _ => Except.error .MalformedMessage

/-- Read one character token; a token that is not the code of a character is
malformed. -/
def readChar : Parser Char :=
  pBind readTok fun t =>
    pBind (pGuard (((Char.ofNat t.toNat).toNat : Int) = t)) fun _ =>
    pPure (Char.ofNat t.toNat)

/-- Read exactly `k` items with `p`; fewer available is a truncation. -/
def readList {α : Type} (p : Parser α) : Nat → Parser (List α)
  | 0 => pPure []
  | Nat.succ k =>
      pBind p fun a => pBind (readList p k) fun as => pPure (a :: as)

/-- Lift an enum-ordinal decoding into a parser. -/
def pOf {α : Type} (e : Except ProtocolError α) : Parser α := fun w =>
  match e with
  | Except.ok a => Except.ok (a, w)
  | Except.error err => Except.error err

/-- Decode a `RequestType` ordinal; out-of-range ordinals are malformed. -/
def RequestType.ofOrd (t : Int) : Except ProtocolError RequestType :=
  if t = 0 then Except.ok .ALLREDUCE
  else if t = 1 then Except.ok .ALLGATHER
  else if t = 2 then Except.ok .BROADCAST
  else Except.error .MalformedMessage

/-- Decode a `ResponseType` ordinal; out-of-range ordinals are malformed. -/
def ResponseType.ofOrd (t : Int) : Except ProtocolError ResponseType :=
  if t = 0 then Except.ok .ALLREDUCE
  else if t = 1 then Except.ok .ALLGATHER
  else if t = 2 then Except.ok .BROADCAST
  else if t = 3 then Except.ok .ERROR
  else Except.error .MalformedMessage

/-- Decode an `MPIDataType` ordinal; out-of-range ordinals are malformed. -/
def MPIDataType.ofOrd (t : Int) : Except ProtocolError MPIDataType :=
  if t = 0 then Except.ok .HOROVOD_UINT8
  else if t = 1 then Except.ok .HOROVOD_INT8
  else if t = 2 then Except.ok .HOROVOD_UINT16
  else if t = 3 then Except.ok .HOROVOD_INT16
  else if t = 4 then Except.ok .HOROVOD_INT32
  else if t = 5 then Except.ok .HOROVOD_INT64
  else if t = 6 then Except.ok .HOROVOD_FLOAT16
  else if t = 7 then Except.ok .HOROVOD_FLOAT32
  else if t = 8 then Except.ok .HOROVOD_FLOAT64
  else if t = 9 then Except.ok .HOROVOD_BOOL
  else Except.error .MalformedMessage

/-- Encode a string: length prefix, then one token per character. -/
def encString (s : String) : Wire :=
  (s.data.length : Int) :: s.data.map (fun c => (c.toNat : Int))

def parseString : Parser String :=
  pBind readNat fun k =>
  pBind (readList readChar k) fun cs =>
  pPure (String.mk cs)

/-- Encode a list of integer fields: length prefix, then one token each. -/
def encIntList (xs : List Int) : Wire := (xs.length : Int) :: xs

def parseIntList : Parser (List Int) :=
  pBind readNat fun k => readList readTok k

def encBool (b : Bool) : Wire := [if b then 1 else 0]

/-- Well-formed in-memory request: the requesting rank is non-negative, as
the specification's data model demands of every rank on the wire. -/
def MPIRequest.WF (r : MPIRequest) : Prop := 0 ≤ r.request_rank

instance (r : MPIRequest) : Decidable r.WF := by
  unfold MPIRequest.WF; infer_instance

/-- Serialize a request: every field in declaration order. -/
def MPIRequest.SerializeToString (r : MPIRequest) : Wire :=
  [r.request_rank] ++ [r.request_type.toOrd] ++ [r.tensor_type.toOrd] ++
  [r.root_rank] ++ [r.device] ++ encString r.tensor_name ++
  encIntList r.tensor_shape

def parseRequest : Parser MPIRequest :=
  pBind readTok fun rank =>
  pBind (pGuard (0 ≤ rank)) fun _ =>
  pBind readTok fun rt => pBind (pOf (RequestType.ofOrd rt)) fun rty =>
  pBind readTok fun tt => pBind (pOf (MPIDataType.ofOrd tt)) fun tty =>
  pBind readTok fun root =>
  pBind readTok fun dev =>
  pBind parseString fun nm =>
  pBind parseIntList fun shape =>
  pPure { request_rank := rank, request_type := rty, tensor_type := tty,
          root_rank := root, device := dev, tensor_name := nm,
          tensor_shape := shape }

/-- Top-level request decoding; trailing tokens are ignored, as the wire
codec's forward-compatibility rule requires. -/
def MPIRequest.ParseFromBytes (w : Wire) : Except ProtocolError MPIRequest :=
  (parseRequest w).map Prod.fst

/-- Well-formed response, per the structural invariants stated in the header
comments and the spec: a non-gather response carries no size list, and the
error message is non-empty exactly on an error response. -/
def MPIResponse.WF (r : MPIResponse) : Prop :=
  (r.response_type ≠ .ALLGATHER → r.tensor_sizes = []) ∧
  (r.error_message ≠ "" ↔ r.response_type = .ERROR)

instance (r : MPIResponse) : Decidable r.WF := by
  unfold MPIResponse.WF; infer_instance

/-- Serialize a response: every field in declaration order; the name list is
length-prefixed, each name a length-prefixed string. -/
def MPIResponse.SerializeToString (r : MPIResponse) : Wire :=
  [r.response_type.toOrd] ++
  ((r.tensor_names.length : Int) :: (r.tensor_names.map encString).flatten) ++
  encString r.error_message ++
  encIntList r.devices ++
  encIntList r.tensor_sizes

def parseResponse : Parser MPIResponse :=
  pBind readTok fun rt => pBind (pOf (ResponseType.ofOrd rt)) fun rty =>
  pBind readNat fun k => pBind (readList parseString k) fun names =>
  pBind parseString fun msg =>
  pBind parseIntList fun devs =>
  pBind parseIntList fun sizes =>
  pBind (pGuard (MPIResponse.WF { response_type := rty, tensor_names := names,
                                  error_message := msg, devices := devs,
                                  tensor_sizes := sizes })) fun _ =>
  pPure { response_type := rty, tensor_names := names, error_message := msg,
          devices := devs, tensor_sizes := sizes }

def MPIResponse.ParseFromBytes (w : Wire) : Except ProtocolError MPIResponse :=
  (parseResponse w).map Prod.fst

/-- Well-formed request batch: every member request is well-formed. -/
def MPIRequestList.WF (l : MPIRequestList) : Prop :=
  ∀ r ∈ l.requests, r.WF

instance (l : MPIRequestList) : Decidable l.WF := by
  unfold MPIRequestList.WF; infer_instance

def MPIRequestList.SerializeToString (l : MPIRequestList) : Wire :=
  encBool l.shutdown ++
  ((l.requests.length : Int) ::
    (l.requests.map MPIRequest.SerializeToString).flatten)

def parseRequestList : Parser MPIRequestList :=
  pBind readBool fun sd =>
  pBind readNat fun k => pBind (readList parseRequest k) fun rs =>
  pPure { requests := rs, shutdown := sd }

def MPIRequestList.ParseFromBytes (w : Wire) :
    Except ProtocolError MPIRequestList :=
  (parseRequestList w).map Prod.fst

/-- Well-formed response batch: every member response is well-formed. -/
def MPIResponseList.WF (l : MPIResponseList) : Prop :=
  ∀ r ∈ l.responses, r.WF

instance (l : MPIResponseList) : Decidable l.WF := by
  unfold MPIResponseList.WF; infer_instance

def MPIResponseList.SerializeToString (l : MPIResponseList) : Wire :=
  encBool l.shutdown ++
  ((l.responses.length : Int) ::
    (l.responses.map MPIResponse.SerializeToString).flatten)

def parseResponseList : Parser MPIResponseList :=
  pBind readBool fun sd =>
  pBind readNat fun k => pBind (readList parseResponse k) fun rs =>
  pPure { responses := rs, shutdown := sd }

def MPIResponseList.ParseFromBytes (w : Wire) :
    Except ProtocolError MPIResponseList :=
  (parseResponseList w).map Prod.fst

/-! ## Coordinator negotiator and fusion engine

Modelled from the spec: the coordinator's algorithm and the fusion engine are
not part of the header file.  The definitions below realize the
specification's per-round algorithm: canonicalize the arrivals into one batch
per rank (rank order, independent of arrival order), decide each distinct
tensor name in ascending-name order (ready when every rank contributed
exactly one request; disagreement on kind, element type or shape becomes an
error response for that name only), fuse adjacent compatible ready responses,
and resolve shutdown only when every rank asked for it and nothing is
pending. -/

/-- Requests of one batch for one tensor name. -/
def reqsFor (nm : String) (b : MPIRequestList) : List MPIRequest :=
  b.requests.filter (fun r => r.tensor_name = nm)

/-- Insertion into an ascending list of names. -/
def insertName (s : String) : List String → List String
  | [] => [s]
  | t :: ts => if s ≤ t then s :: t :: ts else t :: insertName s ts

/-- Ascending sort of tensor names: the global ordering key of the round. -/
def sortNames (l : List String) : List String := l.foldr insertName []

/-- All distinct tensor names requested this round, in ascending order. -/
def roundNames (batches : List MPIRequestList) : List String :=
  sortNames ((batches.map
    (fun b => b.requests.map MPIRequest.tensor_name)).flatten).dedup

/-- A tensor is ready when every rank contributed exactly one request for it
this round. -/
def tensorReady (batches : List MPIRequestList) (nm : String) : Bool :=
  batches.all (fun b => (reqsFor nm b).length == 1)

/-- The per-rank requests of a ready tensor, in rank order. -/
def rankRequests (batches : List MPIRequestList) (nm : String) :
    List MPIRequest :=
  batches.map (fun b => (reqsFor nm b).headD {})

/-- The response kind announcing an agreed request kind. -/
def RequestType.toResponseType : RequestType → ResponseType
  | .ALLREDUCE => .ALLREDUCE
  | .ALLGATHER => .ALLGATHER
  | .BROADCAST => .BROADCAST

/-- Decide one ready tensor from its per-rank requests: agreement yields a
response of the requested kind with the per-rank device list (and, for a
gather, the per-rank dimension-zero sizes); disagreement on kind, element
type or shape yields an error response naming that tensor only. -/
def decideTensor (nm : String) (reqs : List MPIRequest) :
    MPIResponse × MPIDataType :=
  if reqs.all (fun r =>
      r.request_type == (reqs.headD {}).request_type &&
      r.tensor_type == (reqs.headD {}).tensor_type &&
      r.tensor_shape == (reqs.headD {}).tensor_shape) then
    ({ response_type := (reqs.headD {}).request_type.toResponseType,
       tensor_names := [nm],
       error_message := "",
       devices := reqs.map MPIRequest.device,
       tensor_sizes :=
         if (reqs.headD {}).request_type = RequestType.ALLGATHER then
           reqs.map (fun r => r.tensor_shape.headD 0)
         else [] },
     (reqs.headD {}).tensor_type)
  else
    ({ response_type := .ERROR,
       tensor_names := [nm],
       error_message := "Mismatched type, shape, or kind for tensor " ++ nm,
       devices := [],
       tensor_sizes := [] },
     (reqs.headD {}).tensor_type)

/-- One fusion step: merge the next ready response into the last one when
legal — identical gather kind and identical device list (using
`add_allgather_response`), or identical reduce kind, device list and element
type; anything else starts a new group.  The accumulator is kept reversed. -/
def fuseInto (acc : List (MPIResponse × MPIDataType))
    (x : MPIResponse × MPIDataType) : List (MPIResponse × MPIDataType) :=
  match acc with
  | [] => [x]
  | (r, t) :: rest =>
    if r.response_type = .ALLGATHER ∧ x.1.response_type = .ALLGATHER ∧
        r.devices = x.1.devices then
      match r.add_allgather_response x.1 with
      | Except.ok merged => (merged, t) :: rest
      | Except.error _ => x :: (r, t) :: rest
    else if r.response_type = .ALLREDUCE ∧ x.1.response_type = .ALLREDUCE ∧
        r.devices = x.1.devices ∧ t = x.2 then
      ({ r with tensor_names := r.tensor_names ++ x.1.tensor_names }, t) :: rest
    else
      x :: (r, t) :: rest

/-- Fusion engine: recombine the already-ready responses, preserving their
ascending-name order; grouping changes, relative order never does. -/
def fuseResponses (rs : List (MPIResponse × MPIDataType)) :
    List MPIResponse :=
  ((rs.foldl fuseInto []).reverse).map Prod.fst

/-- One negotiation round over the canonical, rank-ordered batches. -/
def negotiateRound (batches : List MPIRequestList) : MPIResponseList :=
  let names := roundNames batches
  let ready := names.filter (fun nm => tensorReady batches nm)
  let pending := names.filter (fun nm => !(tensorReady batches nm))
  let decided := ready.map (fun nm => decideTensor nm (rankRequests batches nm))
  { responses := fuseResponses decided,
    shutdown := batches.all MPIRequestList.shutdown && pending.isEmpty }

/-- First batch recorded for a rank, scanning the arrival list in order. -/
def findBatch {β : Type} (rk : Nat) : List (Nat × β) → Option β
  | [] => none
  | (k, b) :: rest => if k = rk then some b else findBatch rk rest

/-- The coordinator's round: canonicalize the arrival list into one batch per
known rank — rank order, not arrival order — then negotiate. -/
def coordinate (n : Nat) (arrivals : List (Nat × MPIRequestList)) :
    MPIResponseList :=
  negotiateRound ((List.range n).map (fun rk => (findBatch rk arrivals).getD {}))

/-! ## Parser correctness predicates -/

/-- `p` consumes exactly `toks` producing `a`, whatever follows. -/
def Consumes {α : Type} (p : Parser α) (toks : Wire) (a : α) : Prop :=
  ∀ rest, p (toks ++ rest) = Except.ok (a, rest)

/-- `p` fails with `MalformedMessage` on every strict truncation of `toks`. -/
def TruncFails {α : Type} (p : Parser α) (toks : Wire) : Prop :=
  ∀ n, n < toks.length →
    p (toks.take n) = Except.error ProtocolError.MalformedMessage

/-- `p` accepts exactly `toks` as the encoding of `a` and rejects every
strict truncation of it. -/
def Parses {α : Type} (p : Parser α) (toks : Wire) (a : α) : Prop :=
  Consumes p toks a ∧ TruncFails p toks

/-! ## Sample messages used as concrete evaluation points -/

def sampleRequest : MPIRequest :=
  { request_rank := 1, request_type := .ALLREDUCE,
    tensor_type := .HOROVOD_FLOAT32, root_rank := 0, device := 2,
    tensor_name := "grad1", tensor_shape := [10] }

def sampleRequestBatch : MPIRequestList :=
  { requests := [sampleRequest], shutdown := false }

/-- Ready gather response for tensor `A`, sizes `[2, 3]` over ranks 0 and 1. -/
def gatherA : MPIResponse :=
  { response_type := .ALLGATHER, tensor_names := ["A"], error_message := "",
    devices := [0, 1], tensor_sizes := [2, 3] }

/-- Ready gather response for tensor `B`, sizes `[4, 1]` over ranks 0 and 1. -/
def gatherB : MPIResponse :=
  { response_type := .ALLGATHER, tensor_names := ["B"], error_message := "",
    devices := [0, 1], tensor_sizes := [4, 1] }

def sampleResponseBatch : MPIResponseList :=
  { responses := [gatherA], shutdown := false }

def batchZero : MPIRequestList :=
  { requests := [{ request_rank := 0, tensor_name := "g" }], shutdown := false }

def batchOne : MPIRequestList :=
  { requests := [{ request_rank := 1, tensor_name := "g" }], shutdown := false }

/-! ## Combinator lemmas -/

theorem parses_pure {α : Type} (a : α) : Parses (pPure a) [] a := by
  constructor
  · intro rest; rfl
  · intro n hn; simp at hn

theorem parses_tok (t : Int) : Parses readTok [t] t := by
  constructor
  · intro rest; rfl
  · intro n hn
    have : n = 0 := by simpa using hn
    subst this
    rfl

theorem parses_guard {c : Prop} [Decidable c] (h : c) :
    Parses (pGuard c) [] () := by
  constructor
  · intro rest; simp [pGuard, h]
  · intro n hn; simp at hn

theorem parses_bind {α β : Type} (p : Parser α) (f : α → Parser β)
    {t u : Wire} {a : α} {b : β}
    (hp : Parses p t a) (hf : Parses (f a) u b) :
    Parses (pBind p f) (t ++ u) b := by
  obtain ⟨hpc, hpt⟩ := hp
  obtain ⟨hfc, hft⟩ := hf
  constructor
  · intro rest
    have h1 := hpc (u ++ rest)
    simp only [List.append_assoc, pBind, h1]
    exact hfc rest
  · intro n hn
    by_cases hlt : n < t.length
    · have htake : (t ++ u).take n = t.take n := by
        rw [List.take_append_eq_append_take]
        have : n - t.length = 0 := by omega
        simp [this]
      rw [htake]
      simp [pBind, hpt n hlt]
    · have hle : t.length ≤ n := by omega
      have htake : (t ++ u).take n = t ++ u.take (n - t.length) := by
        rw [List.take_append_eq_append_take]
        congr 1
        exact List.take_of_length_le hle
      have hm : n - t.length < u.length := by
        have := hn
        simp [List.length_append] at this
        omega
      rw [htake]
      simp [pBind, hpc (u.take (n - t.length))]
      exact hft (n - t.length) hm

theorem parses_readList {α : Type} {p : Parser α} {enc : α → Wire}
    (xs : List α) (h : ∀ x ∈ xs, Parses p (enc x) x) :
    Parses (readList p xs.length) ((xs.map enc).flatten) xs := by
  induction xs with
  | nil => simpa [readList] using parses_pure ([] : List α)
  | cons a as ih =>
    have ha : Parses p (enc a) a := h a (by simp)
    have has : Parses (readList p as.length) ((as.map enc).flatten) as :=
      ih (fun x hx => h x (by simp [hx]))
    have hcons :
        Parses (pBind (readList p as.length) fun bs => pPure (a :: bs))
          ((as.map enc).flatten ++ []) (a :: as) :=
      parses_bind (readList p as.length) (fun bs => pPure (a :: bs)) has
        (parses_pure (a :: as))
    have := parses_bind p
      (fun a0 => pBind (readList p as.length) fun bs => pPure (a0 :: bs))
      ha hcons
    simpa [readList] using this

theorem parses_readNat (n : Nat) : Parses readNat [(n : Int)] n := by
  have h1 : Parses (pGuard (0 ≤ (n : Int))) [] () :=
    parses_guard (by positivity)
  have h2 : Parses (pBind (pGuard (0 ≤ (n : Int))) fun _ =>
      pPure ((n : Int)).toNat) ([] ++ []) ((n : Int)).toNat :=
    parses_bind (pGuard (0 ≤ (n : Int))) (fun _ => pPure ((n : Int)).toNat) h1
      (parses_pure _)
  have h3 := parses_bind readTok
    (fun t => pBind (pGuard (0 ≤ t)) fun _ => pPure t.toNat)
    (parses_tok (n : Int)) h2
  simpa [readNat, Int.toNat_ofNat] using h3

theorem parses_readBool (b : Bool) : Parses readBool (encBool b) b := by
  constructor
  · intro rest
    cases b <;> rfl
  · intro n hn
    have : n = 0 := by cases b <;> simpa [encBool] using hn
    subst this
    cases b <;> rfl

theorem parses_readChar (c : Char) : Parses readChar [(c.toNat : Int)] c := by
  have hvalid : ((Char.ofNat ((c.toNat : Int)).toNat).toNat : Int)
      = (c.toNat : Int) := by
    rw [Int.toNat_ofNat, Char.ofNat_toNat]
  have h1 : Parses (pGuard (((Char.ofNat ((c.toNat : Int)).toNat).toNat : Int)
      = (c.toNat : Int))) [] () := parses_guard hvalid
  have h2 := parses_bind
    (pGuard (((Char.ofNat ((c.toNat : Int)).toNat).toNat : Int) = (c.toNat : Int)))
    (fun _ => pPure (Char.ofNat ((c.toNat : Int)).toNat)) h1
    (parses_pure (Char.ofNat ((c.toNat : Int)).toNat))
  have h3 := parses_bind readTok
    (fun t => pBind (pGuard (((Char.ofNat t.toNat).toNat : Int) = t)) fun _ =>
      pPure (Char.ofNat t.toNat))
    (parses_tok (c.toNat : Int)) h2
  have hchar : Char.ofNat ((c.toNat : Int)).toNat = c := by
    rw [Int.toNat_ofNat, Char.ofNat_toNat]
  simpa [readChar, hchar] using h3

theorem flatten_map_singleton {α : Type} (f : α → Int) (xs : List α) :
    (xs.map (fun x => [f x])).flatten = xs.map f := by
  induction xs with
  | nil => rfl
  | cons a as ih => simp [ih]

theorem parses_parseString (s : String) :
    Parses parseString (encString s) s := by
  have hchars : Parses (readList readChar s.data.length)
      ((s.data.map (fun c => [(c.toNat : Int)])).flatten) s.data :=
    parses_readList s.data (fun c _ => parses_readChar c)
  have hmk : Parses (pBind (readList readChar s.data.length) fun cs =>
      pPure (String.mk cs))
      ((s.data.map (fun c => [(c.toNat : Int)])).flatten ++ []) (String.mk s.data) :=
    parses_bind (readList readChar s.data.length) (fun cs => pPure (String.mk cs))
      hchars (parses_pure _)
  have h := parses_bind readNat
    (fun k => pBind (readList readChar k) fun cs => pPure (String.mk cs))
    (parses_readNat s.data.length) hmk
  have hs : String.mk s.data = s := by cases s; rfl
  have hflat : (s.data.map (fun c => [(c.toNat : Int)])).flatten
      = s.data.map (fun c => (c.toNat : Int)) :=
    flatten_map_singleton _ s.data
  simpa [parseString, encString, hs, hflat] using h

theorem parses_parseIntList (xs : List Int) :
    Parses parseIntList (encIntList xs) xs := by
  have helems : Parses (readList readTok xs.length)
      ((xs.map (fun x => [x])).flatten) xs :=
    parses_readList xs (fun x _ => parses_tok x)
  have h := parses_bind readNat (fun k => readList readTok k)
    (parses_readNat xs.length) helems
  have hflat : (xs.map (fun x => ([x] : Wire))).flatten = xs := by
    simpa using flatten_map_singleton id xs
  simpa [parseIntList, encIntList, hflat] using h

theorem parses_pOf {α : Type} {e : Except ProtocolError α} {a : α}
    (h : e = Except.ok a) : Parses (pOf e) [] a := by
  constructor
  · intro rest; simp [pOf, h]
  · intro n hn; simp at hn

theorem reqType_ofOrd_toOrd (x : RequestType) :
    RequestType.ofOrd x.toOrd = Except.ok x := by
  cases x <;> simp [RequestType.ofOrd, RequestType.toOrd]

theorem respType_ofOrd_toOrd (x : ResponseType) :
    ResponseType.ofOrd x.toOrd = Except.ok x := by
  cases x <;> simp [ResponseType.ofOrd, ResponseType.toOrd]

theorem dataType_ofOrd_toOrd (x : MPIDataType) :
    MPIDataType.ofOrd x.toOrd = Except.ok x := by
  cases x <;> simp [MPIDataType.ofOrd, MPIDataType.toOrd]

/-! ## Whole-message codec lemmas -/

theorem parses_parseRequest (r : MPIRequest) (h : r.WF) :
    Parses parseRequest r.SerializeToString r := by
  obtain ⟨rank, rty, tty, root, dev, nm, shape⟩ := r
  have h0 : (0 : Int) ≤ rank := h
  have key : Parses parseRequest
      ([rank] ++ ([] ++ ([rty.toOrd] ++ ([] ++ ([tty.toOrd] ++ ([] ++
        ([root] ++ ([dev] ++ (encString nm ++ (encIntList shape ++ []))))))))))
      { request_rank := rank, request_type := rty, tensor_type := tty,
        root_rank := root, device := dev, tensor_name := nm,
        tensor_shape := shape } := by
    refine parses_bind _ _ (parses_tok rank) ?_
    refine parses_bind _ _ (parses_guard h0) ?_
    refine parses_bind _ _ (parses_tok rty.toOrd) ?_
    refine parses_bind _ _ (parses_pOf (reqType_ofOrd_toOrd rty)) ?_
    refine parses_bind _ _ (parses_tok tty.toOrd) ?_
    refine parses_bind _ _ (parses_pOf (dataType_ofOrd_toOrd tty)) ?_
    refine parses_bind _ _ (parses_tok root) ?_
    refine parses_bind _ _ (parses_tok dev) ?_
    refine parses_bind _ _ (parses_parseString nm) ?_
    refine parses_bind _ _ (parses_parseIntList shape) ?_
    exact parses_pure _
  simpa [MPIRequest.SerializeToString] using key

theorem parses_parseResponse (r : MPIResponse) (h : r.WF) :
    Parses parseResponse r.SerializeToString r := by
  obtain ⟨rty, names, msg, devs, sizes⟩ := r
  have key : Parses parseResponse
      ([rty.toOrd] ++ ([] ++ ([(names.length : Int)] ++
        ((names.map encString).flatten ++ (encString msg ++
          (encIntList devs ++ (encIntList sizes ++ ([] ++ []))))))))
      { response_type := rty, tensor_names := names, error_message := msg,
        devices := devs, tensor_sizes := sizes } := by
    refine parses_bind _ _ (parses_tok rty.toOrd) ?_
    refine parses_bind _ _ (parses_pOf (respType_ofOrd_toOrd rty)) ?_
    refine parses_bind _ _ (parses_readNat names.length) ?_
    refine parses_bind _ _
      (parses_readList names (fun s _ => parses_parseString s)) ?_
    refine parses_bind _ _ (parses_parseString msg) ?_
    refine parses_bind _ _ (parses_parseIntList devs) ?_
    refine parses_bind _ _ (parses_parseIntList sizes) ?_
    refine parses_bind _ _ (parses_guard h) ?_
    exact parses_pure _
  simpa [MPIResponse.SerializeToString] using key

theorem parses_parseRequestList (l : MPIRequestList) (h : l.WF) :
    Parses parseRequestList l.SerializeToString l := by
  obtain ⟨reqs, sd⟩ := l
  have key : Parses parseRequestList
      (encBool sd ++ ([(reqs.length : Int)] ++
        ((reqs.map MPIRequest.SerializeToString).flatten ++ [])))
      { requests := reqs, shutdown := sd } := by
    refine parses_bind _ _ (parses_readBool sd) ?_
    refine parses_bind _ _ (parses_readNat reqs.length) ?_
    refine parses_bind _ _
      (parses_readList reqs (fun r hr => parses_parseRequest r (h r hr))) ?_
    exact parses_pure _
  simpa [MPIRequestList.SerializeToString] using key

theorem parses_parseResponseList (l : MPIResponseList) (h : l.WF) :
    Parses parseResponseList l.SerializeToString l := by
  obtain ⟨resps, sd⟩ := l
  have key : Parses parseResponseList
      (encBool sd ++ ([(resps.length : Int)] ++
        ((resps.map MPIResponse.SerializeToString).flatten ++ [])))
      { responses := resps, shutdown := sd } := by
    refine parses_bind _ _ (parses_readBool sd) ?_
    refine parses_bind _ _ (parses_readNat resps.length) ?_
    refine parses_bind _ _
      (parses_readList resps (fun r hr => parses_parseResponse r (h r hr))) ?_
    exact parses_pure _
  simpa [MPIResponseList.SerializeToString] using key

/-! ## Inversion: what a successful parse guarantees -/

theorem pBind_ok {α β : Type} {p : Parser α} {f : α → Parser β} {w : Wire}
    {b : β} {w2 : Wire} (h : pBind p f w = Except.ok (b, w2)) :
    ∃ a w1, p w = Except.ok (a, w1) ∧ f a w1 = Except.ok (b, w2) := by
  unfold pBind at h
  cases hp : p w with
  | error e => rw [hp] at h; cases h
  | ok aw =>
    obtain ⟨a, w1⟩ := aw
    rw [hp] at h
    exact ⟨a, w1, rfl, h⟩

theorem pGuard_ok {c : Prop} [Decidable c] {w : Wire} {u : Unit} {w2 : Wire}
    (h : pGuard c w = Except.ok (u, w2)) : c := by
  by_cases hc : c
  · exact hc
  · simp [pGuard, hc] at h

theorem pPure_ok {α : Type} {a b : α} {w w2 : Wire}
    (h : pPure a w = Except.ok (b, w2)) : b = a ∧ w2 = w := by
  unfold pPure at h
  injection h with h1
  injection h1 with ha hw
  exact ⟨ha.symm, hw.symm⟩

/-- Every response a successful parse returns satisfies the structural
invariants: the parser checks them and rejects the input otherwise. -/
theorem parseResponse_wf {w : Wire} {r : MPIResponse} {w2 : Wire}
    (h : parseResponse w = Except.ok (r, w2)) : r.WF := by
  unfold parseResponse at h
  obtain ⟨rt, wa, -, h⟩ := pBind_ok h
  obtain ⟨rty, wb, -, h⟩ := pBind_ok h
  obtain ⟨k, wc, -, h⟩ := pBind_ok h
  obtain ⟨names, wd, -, h⟩ := pBind_ok h
  obtain ⟨msg, we, -, h⟩ := pBind_ok h
  obtain ⟨devs, wf0, -, h⟩ := pBind_ok h
  obtain ⟨sizes, wg, -, h⟩ := pBind_ok h
  obtain ⟨u, wh, hg, h⟩ := pBind_ok h
  obtain ⟨hb, -⟩ := pPure_ok h
  rw [hb]
  exact pGuard_ok hg

/-- Every request a successful parse returns has a non-negative rank: the
parser validates the rank field. -/
theorem parseRequest_rank_nonneg {w : Wire} {r : MPIRequest} {w2 : Wire}
    (h : parseRequest w = Except.ok (r, w2)) : 0 ≤ r.request_rank := by
  unfold parseRequest at h
  obtain ⟨rank, wa, -, h⟩ := pBind_ok h
  obtain ⟨u, wb, hg, h⟩ := pBind_ok h
  obtain ⟨rt, wc, -, h⟩ := pBind_ok h
  obtain ⟨rty, wd, -, h⟩ := pBind_ok h
  obtain ⟨tt, we, -, h⟩ := pBind_ok h
  obtain ⟨tty, wf0, -, h⟩ := pBind_ok h
  obtain ⟨root, wg, -, h⟩ := pBind_ok h
  obtain ⟨dev, wh, -, h⟩ := pBind_ok h
  obtain ⟨nm, wi, -, h⟩ := pBind_ok h
  obtain ⟨shape, wj, -, h⟩ := pBind_ok h
  obtain ⟨hb, -⟩ := pPure_ok h
  rw [hb]
  exact pGuard_ok hg

/-! ## Arrival-order invariance of the coordinator's rendezvous table -/

theorem findBatch_perm {β : Type} {l1 l2 : List (Nat × β)} (h : l1.Perm l2) :
    (l1.map Prod.fst).Nodup → ∀ rk, findBatch rk l1 = findBatch rk l2 := by
  induction h with
  | nil => intro _ _; rfl
  | cons x h0 ih =>
    intro nd rk
    obtain ⟨k, b⟩ := x
    simp only [findBatch]
    by_cases hk : k = rk
    · simp [hk]
    · simp only [hk, if_false]
      exact ih (List.nodup_cons.mp nd).2 rk
  | swap x y l =>
    intro nd rk
    obtain ⟨kx, bx⟩ := x
    obtain ⟨ky, by0⟩ := y
    have hmem := (List.nodup_cons.mp nd).1
    have hne : ky ≠ kx := fun e => hmem (by simp [e])
    simp only [findBatch]
    by_cases hy : ky = rk
    · have hx : kx ≠ rk := fun hc => hne (hy.trans hc.symm)
      simp [hy, hx]
    · by_cases hx : kx = rk <;> simp [hy, hx]
  | trans h1 h2 ih1 ih2 =>
    intro nd rk
    rw [ih1 nd rk]
    exact ih2 (((h1.map Prod.fst).nodup_iff).mp nd) rk

/-- The coordinator's decision depends only on which batch each rank sent,
never on the order the batches arrived in. -/
theorem coordinate_perm {l1 l2 : List (Nat × MPIRequestList)} (n : Nat)
    (h : l1.Perm l2) (nd : (l1.map Prod.fst).Nodup) :
    coordinate n l1 = coordinate n l2 := by
  unfold coordinate
  congr 1
  exact List.map_congr_left fun rk _ => by rw [findBatch_perm h nd rk]

theorem except_map_fst_ok {α : Type} {e : Except ProtocolError (α × Wire)}
    {r : α} (h : e.map Prod.fst = Except.ok r) :
    ∃ w2, e = Except.ok (r, w2) := by
  cases e with
  | error x => simp [Except.map] at h
  | ok aw =>
    obtain ⟨a, w2⟩ := aw
    simp [Except.map] at h
    exact ⟨w2, by rw [h]⟩

/-! ## Claims -/

/-- C1: for every well-formed in-memory message of each message type
(`MPIRequest`, `MPIRequestList`, `MPIResponse`, `MPIResponseList`), parsing
the bytes produced by serializing it yields a message equal to the original —
order of every repeated field included, zero-length repeated fields
included. -/
theorem round_trip_all_message_types :
    (∀ r : MPIRequest, r.WF →
      MPIRequest.ParseFromBytes r.SerializeToString = Except.ok r) ∧
    (∀ l : MPIRequestList, l.WF →
      MPIRequestList.ParseFromBytes l.SerializeToString = Except.ok l) ∧
    (∀ r : MPIResponse, r.WF →
      MPIResponse.ParseFromBytes r.SerializeToString = Except.ok r) ∧
    (∀ l : MPIResponseList, l.WF →
      MPIResponseList.ParseFromBytes l.SerializeToString = Except.ok l) := by
  refine ⟨?_, ?_, ?_, ?_⟩
  · intro r h
    have hc := (parses_parseRequest r h).1 []
    rw [List.append_nil] at hc
    simp [MPIRequest.ParseFromBytes, hc, Except.map]
  · intro l h
    have hc := (parses_parseRequestList l h).1 []
    rw [List.append_nil] at hc
    simp [MPIRequestList.ParseFromBytes, hc, Except.map]
  · intro r h
    have hc := (parses_parseResponse r h).1 []
    rw [List.append_nil] at hc
    simp [MPIResponse.ParseFromBytes, hc, Except.map]
  · intro l h
    have hc := (parses_parseResponseList l h).1 []
    rw [List.append_nil] at hc
    simp [MPIResponseList.ParseFromBytes, hc, Except.map]

/-- Witness for C1: a concrete request batch with a non-empty name and
shape, and a concrete empty response batch, both survive the round trip. -/
theorem round_trip_all_message_types_witness :
    MPIRequestList.ParseFromBytes sampleRequestBatch.SerializeToString =
      Except.ok sampleRequestBatch ∧
    MPIResponseList.ParseFromBytes
        (({} : MPIResponseList).SerializeToString) =
      Except.ok ({} : MPIResponseList) :=
  ⟨round_trip_all_message_types.2.1 sampleRequestBatch (by decide),
   round_trip_all_message_types.2.2.2 ({} : MPIResponseList) (by decide)⟩

/-- C2: extending a gather response with another appends the names, devices
and per-rank dimension-zero sizes in order; fusing the ready gather
responses for tensors `A` (sizes `[2, 3]`) and `B` (sizes `[4, 1]`) over
ranks 0 and 1 yields one response with names `[A, B]` and sizes
`[2, 3, 4, 1]`. -/
theorem allgather_fusion_appends :
    (∀ r other : MPIResponse,
      r.response_type = ResponseType.ALLGATHER →
      other.response_type = ResponseType.ALLGATHER →
      r.add_allgather_response other = Except.ok
        { r with
          tensor_names := r.tensor_names ++ other.tensor_names,
          devices := r.devices ++ other.devices,
          tensor_sizes := r.tensor_sizes ++ other.tensor_sizes }) ∧
    fuseResponses [(gatherA, MPIDataType.HOROVOD_FLOAT32),
                   (gatherB, MPIDataType.HOROVOD_FLOAT32)] =
      [{ response_type := ResponseType.ALLGATHER,
         tensor_names := ["A", "B"], error_message := "",
         devices := [0, 1, 0, 1], tensor_sizes := [2, 3, 4, 1] }] := by
  constructor
  · intro r other h1 h2
    simp [MPIResponse.add_allgather_response, h1, h2]
  · decide

/-- Witness for C2: the append equation evaluated at the two concrete gather
responses of the specification's fusion example. -/
theorem allgather_fusion_appends_witness :
    gatherA.add_allgather_response gatherB = Except.ok
      { gatherA with
        tensor_names := gatherA.tensor_names ++ gatherB.tensor_names,
        devices := gatherA.devices ++ gatherB.devices,
        tensor_sizes := gatherA.tensor_sizes ++ gatherB.tensor_sizes } :=
  allgather_fusion_appends.1 gatherA gatherB rfl rfl

/-- C3: `add_allgather_response` is legal exactly when both responses have
gather kind; every other kind pairing signals `InvalidFusion` instead of
merging. -/
theorem allgather_fusion_kind_check :
    (∀ r other : MPIResponse,
      ¬(r.response_type = ResponseType.ALLGATHER ∧
        other.response_type = ResponseType.ALLGATHER) →
      r.add_allgather_response other =
        Except.error ProtocolError.InvalidFusion) ∧
    (∀ r other : MPIResponse,
      r.response_type = ResponseType.ALLGATHER →
      other.response_type = ResponseType.ALLGATHER →
      ∃ m, r.add_allgather_response other = Except.ok m) := by
  constructor
  · intro r other h
    simp [MPIResponse.add_allgather_response, h]
  · intro r other h1 h2
    refine ⟨{ r with
      tensor_names := r.tensor_names ++ other.tensor_names,
      devices := r.devices ++ other.devices,
      tensor_sizes := r.tensor_sizes ++ other.tensor_sizes }, ?_⟩
    simp [MPIResponse.add_allgather_response, h1, h2]

/-- Witness for C3: extending a default (reduce-kind) response with a gather
response signals `InvalidFusion`. -/
theorem allgather_fusion_kind_check_witness :
    ({} : MPIResponse).add_allgather_response gatherA =
      Except.error ProtocolError.InvalidFusion :=
  allgather_fusion_kind_check.1 ({} : MPIResponse) gatherA (by decide)

/-- C5: the tensor element-type enumeration is closed with exactly ten
members, and their wire ordinals are exactly 0 through 9 in declaration
order. -/
theorem datatype_enum_closed_ordinals :
    MPIDataType.all.length = 10 ∧
    (∀ d : MPIDataType, d ∈ MPIDataType.all) ∧
    MPIDataType.all.Nodup ∧
    MPIDataType.all.map MPIDataType.toOrd =
      [0, 1, 2, 3, 4, 5, 6, 7, 8, 9] := by
  refine ⟨rfl, ?_, ?_, rfl⟩
  · intro d; cases d <;> simp [MPIDataType.all]
  · decide

/-- C10: every newly constructed message carries the declared defaults: a
request has rank 0, kind ALLREDUCE, element type HOROVOD_UINT8, root rank 0,
device 0, empty name and shape; a response has kind ALLREDUCE and empty
message and lists; both list messages are empty with `shutdown = false`. -/
theorem default_constructed_messages :
    ({} : MPIRequest).request_rank = 0 ∧
    ({} : MPIRequest).request_type = RequestType.ALLREDUCE ∧
    ({} : MPIRequest).tensor_type = MPIDataType.HOROVOD_UINT8 ∧
    ({} : MPIRequest).root_rank = 0 ∧
    ({} : MPIRequest).device = 0 ∧
    ({} : MPIRequest).tensor_name = "" ∧
    ({} : MPIRequest).tensor_shape = [] ∧
    ({} : MPIResponse).response_type = ResponseType.ALLREDUCE ∧
    ({} : MPIResponse).tensor_names = [] ∧
    ({} : MPIResponse).error_message = "" ∧
    ({} : MPIResponse).devices = [] ∧
    ({} : MPIResponse).tensor_sizes = [] ∧
    ({} : MPIRequestList).requests = [] ∧
    ({} : MPIRequestList).shutdown = false ∧
    ({} : MPIResponseList).responses = [] ∧
    ({} : MPIResponseList).shutdown = false :=
  ⟨rfl, rfl, rfl, rfl, rfl, rfl, rfl, rfl, rfl, rfl, rfl, rfl, rfl, rfl,
   rfl, rfl⟩

/-- C4: parsing fails with `MalformedMessage` on every strict truncation of
a valid encoding (all four message types), on an out-of-range request-kind or
response-kind ordinal, and it never returns a response violating the
structural invariants. -/
theorem parse_rejects_malformed :
    (∀ r : MPIRequest, r.WF → ∀ n, n < r.SerializeToString.length →
      MPIRequest.ParseFromBytes (r.SerializeToString.take n) =
        Except.error ProtocolError.MalformedMessage) ∧
    (∀ l : MPIRequestList, l.WF → ∀ n, n < l.SerializeToString.length →
      MPIRequestList.ParseFromBytes (l.SerializeToString.take n) =
        Except.error ProtocolError.MalformedMessage) ∧
    (∀ r : MPIResponse, r.WF → ∀ n, n < r.SerializeToString.length →
      MPIResponse.ParseFromBytes (r.SerializeToString.take n) =
        Except.error ProtocolError.MalformedMessage) ∧
    (∀ l : MPIResponseList, l.WF → ∀ n, n < l.SerializeToString.length →
      MPIResponseList.ParseFromBytes (l.SerializeToString.take n) =
        Except.error ProtocolError.MalformedMessage) ∧
    (∀ rank t rest, 0 ≤ rank → (t < 0 ∨ 2 < t) →
      MPIRequest.ParseFromBytes (rank :: t :: rest) =
        Except.error ProtocolError.MalformedMessage) ∧
    (∀ t rest, (t < 0 ∨ 3 < t) →
      MPIResponse.ParseFromBytes (t :: rest) =
        Except.error ProtocolError.MalformedMessage) ∧
    (∀ w r, MPIResponse.ParseFromBytes w = Except.ok r → r.WF) := by
  refine ⟨?_, ?_, ?_, ?_, ?_, ?_, ?_⟩
  · intro r h n hn
    have he := (parses_parseRequest r h).2 n hn
    simp [MPIRequest.ParseFromBytes, he, Except.map]
  · intro l h n hn
    have he := (parses_parseRequestList l h).2 n hn
    simp [MPIRequestList.ParseFromBytes, he, Except.map]
  · intro r h n hn
    have he := (parses_parseResponse r h).2 n hn
    simp [MPIResponse.ParseFromBytes, he, Except.map]
  · intro l h n hn
    have he := (parses_parseResponseList l h).2 n hn
    simp [MPIResponseList.ParseFromBytes, he, Except.map]
  · intro rank t rest h0 hr
    have h1 : ¬(t = 0) := by omega
    have h2 : ¬(t = 1) := by omega
    have h3 : ¬(t = 2) := by omega
    simp [MPIRequest.ParseFromBytes, parseRequest, pBind, readTok, pGuard, h0,
          pOf, RequestType.ofOrd, h1, h2, h3, Except.map]
  · intro t rest hr
    have h1 : ¬(t = 0) := by omega
    have h2 : ¬(t = 1) := by omega
    have h3 : ¬(t = 2) := by omega
    have h4 : ¬(t = 3) := by omega
    simp [MPIResponse.ParseFromBytes, parseResponse, pBind, readTok,
          pOf, ResponseType.ofOrd, h1, h2, h3, h4, Except.map]
  · intro w r h
    obtain ⟨w2, hw⟩ := except_map_fst_ok h
    exact parseResponse_wf hw

/-- A concrete successful parse of a well-formed gather response. -/
theorem gatherA_parse_ok :
    MPIResponse.ParseFromBytes gatherA.SerializeToString =
      Except.ok gatherA := by
  decide

/-- Witness for C4: a strict truncation of a concrete request encoding is
rejected, an out-of-range request-kind ordinal 7 is rejected, and a concrete
successful response parse satisfies the structural invariants. -/
theorem parse_rejects_malformed_witness :
    MPIRequest.ParseFromBytes (sampleRequest.SerializeToString.take 2) =
      Except.error ProtocolError.MalformedMessage ∧
    MPIRequest.ParseFromBytes [0, 7] =
      Except.error ProtocolError.MalformedMessage ∧
    gatherA.WF :=
  ⟨parse_rejects_malformed.1 sampleRequest (by decide) 2 (by decide),
   parse_rejects_malformed.2.2.2.2.1 0 7 [] (by decide) (by omega),
   parse_rejects_malformed.2.2.2.2.2.2 gatherA.SerializeToString gatherA
     gatherA_parse_ok⟩

/-- C6 counterexample: the default-constructed response is accepted
unchanged by the codec, its size list and device list have equal length
(both are empty), and yet its kind is not gather — so equal lengths do not
characterize the gather kind, refuting the stated if-and-only-if. -/
theorem sizes_devices_iff_counterexample :
    MPIResponse.ParseFromBytes (({} : MPIResponse).SerializeToString) =
      Except.ok ({} : MPIResponse) ∧
    ({} : MPIResponse).tensor_sizes.length =
      ({} : MPIResponse).devices.length ∧
    ({} : MPIResponse).response_type ≠ ResponseType.ALLGATHER := by
  refine ⟨by decide, rfl, by decide⟩

/-- C6 amended: every response the codec accepts has an empty size list
unless its kind is gather, and every per-tensor gather decision the
negotiator produces has as many per-rank sizes as participating devices;
but length equality alone does not imply the gather kind. -/
theorem sizes_empty_unless_gather :
    (∀ w r, MPIResponse.ParseFromBytes w = Except.ok r →
      r.response_type ≠ ResponseType.ALLGATHER → r.tensor_sizes = []) ∧
    (∀ nm reqs,
      (decideTensor nm reqs).1.response_type = ResponseType.ALLGATHER →
      (decideTensor nm reqs).1.tensor_sizes.length =
        (decideTensor nm reqs).1.devices.length) := by
  constructor
  · intro w r h hng
    obtain ⟨w2, hw⟩ := except_map_fst_ok h
    exact (parseResponse_wf hw).1 hng
  · intro nm reqs h
    unfold decideTensor at h ⊢
    split at h
    · rename_i hcond
      rw [if_pos hcond]
      cases hcr : (reqs.headD {}).request_type <;>
        simp only [hcr, RequestType.toResponseType] at h ⊢ <;> simp_all
    · rename_i hcond
      rw [if_neg hcond]

/-- Witness for the amended C6: the codec-accepted default response has an
empty size list, and a concrete single-tensor gather decision has one size
per device. -/
theorem sizes_empty_unless_gather_witness :
    ({} : MPIResponse).tensor_sizes = [] ∧
    (decideTensor "g"
        [{ request_type := RequestType.ALLGATHER, tensor_shape := [5] }]).1.tensor_sizes.length =
      (decideTensor "g"
        [{ request_type := RequestType.ALLGATHER, tensor_shape := [5] }]).1.devices.length :=
  ⟨sizes_empty_unless_gather.1 (({} : MPIResponse).SerializeToString)
      ({} : MPIResponse) (by decide) (by decide),
   sizes_empty_unless_gather.2 "g"
      [{ request_type := RequestType.ALLGATHER, tensor_shape := [5] }]
      (by decide)⟩

/-- C7: every response the codec accepts has a non-empty error message
exactly when its kind is error; in particular every reduce, gather or
broadcast response carries an empty error message. -/
theorem error_message_iff_error_kind :
    ∀ w r, MPIResponse.ParseFromBytes w = Except.ok r →
      ((r.error_message ≠ "" ↔ r.response_type = ResponseType.ERROR) ∧
       (r.response_type ≠ ResponseType.ERROR → r.error_message = "")) := by
  intro w r h
  obtain ⟨w2, hw⟩ := except_map_fst_ok h
  have hwf := parseResponse_wf hw
  refine ⟨hwf.2, ?_⟩
  intro hne
  by_contra hmsg
  exact hne (hwf.2.mp hmsg)

/-- Witness for C7: the concrete gather response parses successfully and
indeed has an empty error message and a non-error kind. -/
theorem error_message_iff_error_kind_witness :
    (gatherA.error_message ≠ "" ↔
      gatherA.response_type = ResponseType.ERROR) ∧
    (gatherA.response_type ≠ ResponseType.ERROR →
      gatherA.error_message = "") :=
  error_message_iff_error_kind gatherA.SerializeToString gatherA
    gatherA_parse_ok

/-- C8: for one logical round — one batch per rank — every arrival-order
permutation of the request batches makes the coordinator emit byte-identical
response-batch content. -/
theorem coordinator_arrival_order_deterministic :
    ∀ (n : Nat) (l1 l2 : List (Nat × MPIRequestList)), l1.Perm l2 →
      (l1.map Prod.fst).Nodup →
      (coordinate n l1).SerializeToString =
        (coordinate n l2).SerializeToString := by
  intro n l1 l2 h nd
  rw [coordinate_perm n h nd]

/-- Witness for C8: swapping the arrival order of the two rank batches of a
concrete round leaves the emitted bytes identical. -/
theorem coordinator_arrival_order_deterministic_witness :
    (coordinate 2 [(0, batchZero), (1, batchOne)]).SerializeToString =
      (coordinate 2 [(1, batchOne), (0, batchZero)]).SerializeToString :=
  coordinator_arrival_order_deterministic 2
    [(0, batchZero), (1, batchOne)] [(1, batchOne), (0, batchZero)]
    (List.Perm.swap (1, batchOne) (0, batchZero) []) (by decide)

/-- C9 counterexample: `set_request_rank` stores its argument unchecked, so
one setter call makes the requesting rank negative, refuting the claim that
no operation on a request can do so. -/
theorem request_rank_nonneg_counterexample :
    (MPIRequest.set_request_rank {} (-1)).request_rank < 0 := by
  decide

/-- C9 amended: `set_request_rank` stores exactly its argument — so a caller
can store a negative rank — while every request the codec accepts has a
non-negative requesting rank, which is how the protocol keeps wire ranks
non-negative. -/
theorem request_rank_nonneg_on_wire :
    (∀ (r : MPIRequest) (v : Int),
      (r.set_request_rank v).request_rank = v) ∧
    (∀ w r, MPIRequest.ParseFromBytes w = Except.ok r →
      0 ≤ r.request_rank) := by
  constructor
  · intro r v; rfl
  · intro w r h
    obtain ⟨w2, hw⟩ := except_map_fst_ok h
    exact parseRequest_rank_nonneg hw

/-- Witness for the amended C9: a concrete parsed request has a non-negative
rank, and a concrete setter call stores its argument. -/
theorem request_rank_nonneg_on_wire_witness :
    (MPIRequest.set_request_rank {} 5).request_rank = 5 ∧
    0 ≤ sampleRequest.request_rank :=
  ⟨request_rank_nonneg_on_wire.1 {} 5,
   request_rank_nonneg_on_wire.2 sampleRequest.SerializeToString
     sampleRequest (by decide)⟩

end Horovod
